import Mathlib

/-!
Verification of the aggregate-operator evaluation core of the CQL
interpreter (file `interpreter/operator_aggregate.go`): the operators
AllTrue, AnyTrue, Count and Sum over typed, nullable runtime values.

The embedding mirrors the Go source:
* `CqlType` embeds the runtime type descriptors of the `types` package
  (`types.Boolean`, `types.Integer`, ..., `types.Any`, `*types.List`).
* `Payload` / `Value` embed `result.Value`: a runtime value carries a
  runtime type descriptor and a payload which is either nil (null) or a
  primitive/composite datum.  Go's `int32` / `int64` payloads are embedded
  as `Int`; arithmetic on them wraps explicitly at the corresponding width
  (`wrap32` / `wrap64`).  Go's `float64` (Decimal and Quantity magnitudes)
  is embedded as exact rational arithmetic `Rat`.
* The coercion helpers of the `result` package (`IsNull`, `ToSlice`,
  `ToBool`, `ToInt32`, `ToInt64`, `ToFloat64`, `ToQuantity`, `New`) are not
  part of the source slice; they are modelled from the spec (section 4.1).
* `evalAllTrue`, `evalAnyTrue`, `evalCount`, `evalSum` are translated
  statement by statement from the Go source; the Go `for` loops with
  mutable accumulators become tail-recursive loop functions threading the
  accumulator state.
-/

namespace CQLAgg

/-- Runtime type descriptors, embedding the `types` package tags used by the
aggregate operators: scalar kinds, `Any`, and `List` with its element type. -/
inductive CqlType where
  | boolean
  | integer
  | long
  | decimal
  | quantity
  | strT
  | dateT
  | any
  | list (elementType : CqlType)
deriving Repr

/-- Payload of a runtime value: `null` (Go nil), or a primitive / composite
datum.  List payloads hold the element values, each a runtime type paired
with a payload (a `Value`). -/
inductive Payload where
  | null : Payload
  | boolean : Bool → Payload
  | integer : Int → Payload
  | long : Int → Payload
  | decimal : Rat → Payload
  | quantity : Rat → String → Payload
  | strV : String → Payload
  | listP : List (CqlType × Payload) → Payload

/-- Embeds `result.Value`: a runtime type descriptor together with a payload. -/
abbrev Value := CqlType × Payload

/-- Embeds `result.Quantity`: a magnitude (Go `float64`, embedded as `Rat`)
and a unit string. -/
structure Quantity where
  value : Rat
  unit : String
deriving Repr

/-- Runtime errors.  Go errors are values carrying a message string. -/
structure EvalErr where
  msg : String
deriving Repr

/-- Embeds `model.IUnaryExpression` at the interface the operators use: the
operator-name accessor `GetName` consulted for error messages. -/
structure UnaryExpression where
  name : String

/-- The node's operator-name accessor, embedding `m.GetName()`. -/
def UnaryExpression.GetName (m : UnaryExpression) : String := m.name

/-- Embeds the accessor `v.RuntimeType()` of `result.Value`. -/
def runtimeType (v : Value) : CqlType := v.1

/-- Modelled from the spec: `result.IsNull` is true iff the value represents
absence (nil payload). -/
def isNull (v : Value) : Bool :=
  match v.2 with
  | .null => true
  | _ => false

/-- Modelled from the spec: `result.ToSlice` yields the element sequence of a
list value and fails with a type error otherwise.  The helper receives only
the value, so its message cannot mention the calling operator. -/
def toSlice (v : Value) : Except EvalErr (List Value) :=
  match v.2 with
  | .listP l => .ok l
  | _ => .error ⟨"cannot coerce value to a list"⟩

/-- Modelled from the spec: `result.ToBool` fails with a type error unless the
payload is a boolean.  The helper receives only the value, so its message
cannot mention the calling operator. -/
def toBool (v : Value) : Except EvalErr Bool :=
  match v.2 with
  | .boolean b => .ok b
  | _ => .error ⟨"cannot coerce value to a boolean"⟩

/-- Modelled from the spec: `result.ToInt32`. -/
def toInt32 (v : Value) : Except EvalErr Int :=
  match v.2 with
  | .integer n => .ok n
  | _ => .error ⟨"cannot coerce value to an int32"⟩

/-- Modelled from the spec: `result.ToInt64`. -/
def toInt64 (v : Value) : Except EvalErr Int :=
  match v.2 with
  | .long n => .ok n
  | _ => .error ⟨"cannot coerce value to an int64"⟩

/-- Modelled from the spec: `result.ToFloat64` (Go `float64` embedded as
`Rat`). -/
def toFloat64 (v : Value) : Except EvalErr Rat :=
  match v.2 with
  | .decimal q => .ok q
  | _ => .error ⟨"cannot coerce value to a float64"⟩

/-- Modelled from the spec: `result.ToQuantity`. -/
def toQuantity (v : Value) : Except EvalErr Quantity :=
  match v.2 with
  | .quantity q u => .ok ⟨q, u⟩
  | _ => .error ⟨"cannot coerce value to a quantity"⟩

/-- Embeds `result.New(true)` / `result.New(false)`: a present boolean value. -/
def newBool (b : Bool) : Value := (CqlType.boolean, Payload.boolean b)

/-- Embeds `result.New` on an integer: a present Integer value. -/
def newInt (n : Int) : Value := (CqlType.integer, Payload.integer n)

/-- Embeds `result.New` on an int64: a present Long value. -/
def newLong (n : Int) : Value := (CqlType.long, Payload.long n)

/-- Embeds `result.New` on a float64: a present Decimal value. -/
def newDecimal (q : Rat) : Value := (CqlType.decimal, Payload.decimal q)

/-- Embeds `result.New` on a `result.Quantity`: a present Quantity value. -/
def newQuantity (q : Quantity) : Value := (CqlType.quantity, Payload.quantity q.value q.unit)

/-- Embeds `result.New(nil)`: the null value. -/
def newNull : Value := (CqlType.any, Payload.null)

/-- A present list value with declared element type `elemT` and the given
elements. -/
def newList (elemT : CqlType) (elems : List Value) : Value :=
  (CqlType.list elemT, Payload.listP elems)

/-- The 32-bit two's-complement wraparound: the result of storing an integer in a
Go `int32`. -/
def wrap32 (x : Int) : Int := (x + 2 ^ 31) % 2 ^ 32 - 2 ^ 31

/-- The 64-bit two's-complement wraparound: the result of storing an integer in a
Go `int64`. -/
def wrap64 (x : Int) : Int := (x + 2 ^ 63) % 2 ^ 64 - 2 ^ 63

/-- The `for` loop of `evalAllTrue`: skip null elements; coerce each non-null
element to boolean (propagating the coercion error); return present `false`
at the first false element; present `true` past the end. -/
def allTrueLoop : List Value → Except EvalErr Value
  | [] => .ok (newBool true)
  | elem :: rest =>
    if isNull elem then allTrueLoop rest
    else
      match toBool elem with
      | .error err => .error err
      | .ok bv => if !bv then .ok (newBool false) else allTrueLoop rest

/-- Embeds `evalAllTrue` from `operator_aggregate.go`: null operand yields present
`true`; otherwise the operand is coerced to a slice and scanned. -/
def evalAllTrue (m : UnaryExpression) (operand : Value) : Except EvalErr Value :=
  if isNull operand then .ok (newBool true)
  else
    match toSlice operand with
    | .error err => .error err
    | .ok l => allTrueLoop l

/-- The `for` loop of `evalAnyTrue`: skip null elements; coerce each non-null
element to boolean; return present `true` at the first true element; present
`false` past the end. -/
def anyTrueLoop : List Value → Except EvalErr Value
  | [] => .ok (newBool false)
  | elem :: rest =>
    if isNull elem then anyTrueLoop rest
    else
      match toBool elem with
      | .error err => .error err
      | .ok bv => if bv then .ok (newBool true) else anyTrueLoop rest

/-- Embeds `evalAnyTrue` from `operator_aggregate.go`: null operand yields present
`false`; otherwise the operand is coerced to a slice and scanned. -/
def evalAnyTrue (m : UnaryExpression) (operand : Value) : Except EvalErr Value :=
  if isNull operand then .ok (newBool false)
  else
    match toSlice operand with
    | .error err => .error err
    | .ok l => anyTrueLoop l

/-- The `for` loop of `evalCount`: the number of non-null elements. -/
def countLoop : List Value → Int
  | [] => 0
  | elem :: rest => (if isNull elem then 0 else 1) + countLoop rest

/-- Embeds `evalCount` from `operator_aggregate.go`: null operand yields present
`0`; otherwise the operand is coerced to a slice and the non-null elements
are counted. -/
def evalCount (m : UnaryExpression) (operand : Value) : Except EvalErr Value :=
  if isNull operand then .ok (newInt 0)
  else
    match toSlice operand with
    | .error err => .error err
    | .ok l => .ok (newInt (countLoop l))

/-- The Decimal arm of `evalSum`'s loop, threading `sum` (a `float64`,
embedded as `Rat`) and `foundValue`. -/
def sumDecimalLoop : List Value → Rat → Bool → Except EvalErr Value
  | [], sum, foundValue => if !foundValue then .ok newNull else .ok (newDecimal sum)
  | elem :: rest, sum, foundValue =>
    if isNull elem then sumDecimalLoop rest sum foundValue
    else
      match toFloat64 elem with
      | .error err => .error err
      | .ok v => sumDecimalLoop rest (sum + v) true

/-- The Integer arm of `evalSum`'s loop: `sum += v` on a Go `int32` wraps at
32 bits. -/
def sumIntegerLoop : List Value → Int → Bool → Except EvalErr Value
  | [], sum, foundValue => if !foundValue then .ok newNull else .ok (newInt sum)
  | elem :: rest, sum, foundValue =>
    if isNull elem then sumIntegerLoop rest sum foundValue
    else
      match toInt32 elem with
      | .error err => .error err
      | .ok v => sumIntegerLoop rest (wrap32 (sum + v)) true

/-- The Long arm of `evalSum`'s loop: `sum += v` on a Go `int64` wraps at 64
bits. -/
def sumLongLoop : List Value → Int → Bool → Except EvalErr Value
  | [], sum, foundValue => if !foundValue then .ok newNull else .ok (newLong sum)
  | elem :: rest, sum, foundValue =>
    if isNull elem then sumLongLoop rest sum foundValue
    else
      match toInt64 elem with
      | .error err => .error err
      | .ok v => sumLongLoop rest (wrap64 (sum + v)) true

/-- The message of the unit-conflict error raised by `evalSum`'s Quantity
arm, naming the operator and both units. -/
def unitConflictMsg (name u1 u2 : String) : String :=
  "Sum(" ++ name ++ ") got List of Quantity values with different units which is not supported, got " ++ u1 ++ " and " ++ u2

/-- The Quantity arm of `evalSum`'s loop: the first non-null element fixes
the running sum's unit; a later element with a different unit raises the
unit-conflict error; magnitudes (Go `float64`) add as `Rat`. -/
def sumQuantityLoop (m : UnaryExpression) : List Value → Quantity → Bool → Except EvalErr Value
  | [], sum, foundValue => if !foundValue then .ok newNull else .ok (newQuantity sum)
  | elem :: rest, sum, foundValue =>
    if isNull elem then sumQuantityLoop m rest sum foundValue
    else
      match toQuantity elem with
      | .error err => .error err
      | .ok v =>
        let state := if !foundValue then (Quantity.mk 0 v.unit, true) else (sum, foundValue)
        if state.1.unit ≠ v.unit then
          .error ⟨unitConflictMsg m.GetName state.1.unit v.unit⟩
        else
          sumQuantityLoop m rest ⟨state.1.value + v.value, state.1.unit⟩ state.2

/-- Message of the `evalSum` error for a present operand whose runtime type
is not a list. -/
def sumNotListMsg (name : String) : String :=
  "Sum(" ++ name ++ ") operand is not a list"

/-- Message of the `evalSum` error for a list element type outside the
supported set. -/
def sumUnsupportedMsg (name : String) : String :=
  "Sum(" ++ name ++ ") operand is not a list of Decimal, Integer, Long, or Quantity"

/-- Embeds `evalSum` from `operator_aggregate.go`: null operand yields null; the
operand is coerced to a slice; the runtime type must be a list; dispatch on
the declared element type selects the accumulator (`Any` yields null without
inspecting elements; unsupported element types fail). -/
def evalSum (m : UnaryExpression) (operand : Value) : Except EvalErr Value :=
  if isNull operand then .ok newNull
  else
    match toSlice operand with
    | .error err => .error err
    | .ok l =>
      match runtimeType operand with
      | .list elemT =>
        match elemT with
        | .any => .ok newNull
        | .decimal => sumDecimalLoop l 0 false
        | .integer => sumIntegerLoop l 0 false
        | .long => sumLongLoop l 0 false
        | .quantity => sumQuantityLoop m l ⟨0, ""⟩ false
        | _ => .error ⟨sumUnsupportedMsg m.GetName⟩
      | _ => .error ⟨sumNotListMsg m.GetName⟩

/-- A well-typed Boolean list element: null (`none`) or a present boolean. -/
def optBoolVal : Option Bool → Value
  | none => newNull
  | some b => newBool b

/-- A well-typed Integer list element: null or a present int32. -/
def optIntVal : Option Int → Value
  | none => newNull
  | some n => newInt n

/-- A well-typed Long list element: null or a present int64. -/
def optLongVal : Option Int → Value
  | none => newNull
  | some n => newLong n

/-- A well-typed Decimal list element: null or a present float64. -/
def optDecVal : Option Rat → Value
  | none => newNull
  | some q => newDecimal q

/-- A well-typed Quantity list element: null or a present quantity given as
magnitude and unit. -/
def optQtyVal : Option (Rat × String) → Value
  | none => newNull
  | some p => newQuantity ⟨p.1, p.2⟩

/-- Here `listStartsWith n l` is true iff `n` is an initial segment of `l`. -/
def listStartsWith : List Char → List Char → Bool
  | [], _ => true
  | _ :: _, [] => false
  | a :: as, b :: bs => a == b && listStartsWith as bs

/-- Here `listHasSub n l` is true iff `n` occurs contiguously inside `l`. -/
def listHasSub (needle : List Char) : List Char → Bool
  | [] => listStartsWith needle []
  | c :: rest => listStartsWith needle (c :: rest) || listHasSub needle rest

/-- Here `strContains needle hay` is true iff `needle` occurs as a contiguous
substring of `hay`. -/
def strContains (needle hay : String) : Bool := listHasSub needle.data hay.data

/-! ## Arithmetic facts about the wraparound embeddings -/

theorem wrap32_add_left (a b : Int) : wrap32 (wrap32 a + b) = wrap32 (a + b) := by
  unfold wrap32
  omega

theorem wrap32_emod (a : Int) : wrap32 a % 2 ^ 32 = a % 2 ^ 32 := by
  unfold wrap32
  omega

theorem wrap64_add_left (a b : Int) : wrap64 (wrap64 a + b) = wrap64 (a + b) := by
  unfold wrap64
  omega

theorem wrap64_emod (a : Int) : wrap64 a % 2 ^ 64 = a % 2 ^ 64 := by
  unfold wrap64
  omega

/-! ## Substring machinery for error-message claims -/

theorem listStartsWith_self_append (n post : List Char) :
    listStartsWith n (n ++ post) = true := by
  induction n with
  | nil => rfl
  | cons a as ih => simp [listStartsWith, ih]

theorem listHasSub_append_left (n pre rest : List Char) (h : listHasSub n rest = true) :
    listHasSub n (pre ++ rest) = true := by
  induction pre with
  | nil => simpa using h
  | cons c cs ih => simp [listHasSub, ih]

theorem listHasSub_of_mid (n pre post : List Char) :
    listHasSub n (pre ++ (n ++ post)) = true := by
  apply listHasSub_append_left
  cases n with
  | nil =>
    cases post with
    | nil => rfl
    | cons c cs => simp [listHasSub, listStartsWith]
  | cons a as =>
    apply Bool.or_eq_true_iff.mpr
    left
    simpa [listHasSub] using listStartsWith_self_append (a :: as) post

theorem strContains_of_data (n s : String) (pre post : List Char)
    (h : s.data = pre ++ (n.data ++ post)) : strContains n s = true := by
  unfold strContains
  rw [h]
  exact listHasSub_of_mid _ _ _

/-! ## Closed forms for the operator loops over well-typed element lists -/

theorem allTrueLoop_closed (xs : List (Option Bool)) :
    allTrueLoop (xs.map optBoolVal) = .ok (newBool (xs.reduceOption.all id)) := by
  induction xs with
  | nil => rfl
  | cons o rest ih =>
    cases o with
    | none =>
      simpa [optBoolVal, allTrueLoop, isNull, newNull, List.reduceOption_cons_of_none] using ih
    | some b =>
      cases b <;>
        simp [optBoolVal, allTrueLoop, isNull, newBool, toBool,
          List.reduceOption_cons_of_some, ih]

theorem anyTrueLoop_closed (xs : List (Option Bool)) :
    anyTrueLoop (xs.map optBoolVal) = .ok (newBool (xs.reduceOption.any id)) := by
  induction xs with
  | nil => rfl
  | cons o rest ih =>
    cases o with
    | none =>
      simpa [optBoolVal, anyTrueLoop, isNull, newNull, List.reduceOption_cons_of_none] using ih
    | some b =>
      cases b <;>
        simp [optBoolVal, anyTrueLoop, isNull, newBool, toBool,
          List.reduceOption_cons_of_some, ih]

theorem countLoop_closed (elems : List Value) :
    countLoop elems = ((elems.filter fun e => !isNull e).length : Int) := by
  induction elems with
  | nil => rfl
  | cons e rest ih =>
    by_cases h : isNull e = true
    · simp [countLoop, h, List.filter, ih]
    · simp only [Bool.not_eq_true] at h
      simp [countLoop, h, List.filter, ih]
      omega

theorem sumDecimalLoop_true (xs : List (Option Rat)) (s : Rat) :
    sumDecimalLoop (xs.map optDecVal) s true = .ok (newDecimal (s + xs.reduceOption.sum)) := by
  induction xs generalizing s with
  | nil => simp [sumDecimalLoop, List.reduceOption_nil]
  | cons o rest ih =>
    cases o with
    | none =>
      simpa [optDecVal, sumDecimalLoop, isNull, newNull, List.reduceOption_cons_of_none] using ih s
    | some v =>
      simp [optDecVal, sumDecimalLoop, isNull, newDecimal, toFloat64,
        List.reduceOption_cons_of_some, ih, add_assoc]

theorem sumDecimalLoop_false (xs : List (Option Rat)) :
    sumDecimalLoop (xs.map optDecVal) 0 false =
      if xs.reduceOption = [] then .ok newNull else .ok (newDecimal xs.reduceOption.sum) := by
  induction xs with
  | nil => rfl
  | cons o rest ih =>
    cases o with
    | none =>
      simpa [optDecVal, sumDecimalLoop, isNull, newNull, List.reduceOption_cons_of_none] using ih
    | some v =>
      simp [optDecVal, sumDecimalLoop, isNull, newDecimal, toFloat64,
        List.reduceOption_cons_of_some, sumDecimalLoop_true]

theorem sumIntegerLoop_true (xs : List (Option Int)) (s : Int) :
    sumIntegerLoop (xs.map optIntVal) (wrap32 s) true =
      .ok (newInt (wrap32 (s + xs.reduceOption.sum))) := by
  induction xs generalizing s with
  | nil => simp [sumIntegerLoop, List.reduceOption_nil]
  | cons o rest ih =>
    cases o with
    | none =>
      simpa [optIntVal, sumIntegerLoop, isNull, newNull, List.reduceOption_cons_of_none] using ih s
    | some v =>
      have h := ih (s + v)
      simp only [optIntVal, sumIntegerLoop, isNull, newInt, toInt32, List.map_cons,
        List.reduceOption_cons_of_some, List.sum_cons]
      rw [wrap32_add_left, h, add_assoc]
      simp [newInt]

theorem sumIntegerLoop_false (xs : List (Option Int)) :
    sumIntegerLoop (xs.map optIntVal) 0 false =
      if xs.reduceOption = [] then .ok newNull else .ok (newInt (wrap32 xs.reduceOption.sum)) := by
  induction xs with
  | nil => rfl
  | cons o rest ih =>
    cases o with
    | none =>
      simpa [optIntVal, sumIntegerLoop, isNull, newNull, List.reduceOption_cons_of_none] using ih
    | some v =>
      have h := sumIntegerLoop_true rest v
      simp only [optIntVal, sumIntegerLoop, isNull, newInt, toInt32, List.map_cons,
        List.reduceOption_cons_of_some, List.sum_cons]
      have h0 : wrap32 (0 + v) = wrap32 v := by rw [zero_add]
      simp [h0, h, newInt]

theorem sumLongLoop_true (xs : List (Option Int)) (s : Int) :
    sumLongLoop (xs.map optLongVal) (wrap64 s) true =
      .ok (newLong (wrap64 (s + xs.reduceOption.sum))) := by
  induction xs generalizing s with
  | nil => simp [sumLongLoop, List.reduceOption_nil]
  | cons o rest ih =>
    cases o with
    | none =>
      simpa [optLongVal, sumLongLoop, isNull, newNull, List.reduceOption_cons_of_none] using ih s
    | some v =>
      have h := ih (s + v)
      simp only [optLongVal, sumLongLoop, isNull, newLong, toInt64, List.map_cons,
        List.reduceOption_cons_of_some, List.sum_cons]
      rw [wrap64_add_left, h, add_assoc]
      simp [newLong]

theorem sumLongLoop_false (xs : List (Option Int)) :
    sumLongLoop (xs.map optLongVal) 0 false =
      if xs.reduceOption = [] then .ok newNull else .ok (newLong (wrap64 xs.reduceOption.sum)) := by
  induction xs with
  | nil => rfl
  | cons o rest ih =>
    cases o with
    | none =>
      simpa [optLongVal, sumLongLoop, isNull, newNull, List.reduceOption_cons_of_none] using ih
    | some v =>
      have h := sumLongLoop_true rest v
      simp only [optLongVal, sumLongLoop, isNull, newLong, toInt64, List.map_cons,
        List.reduceOption_cons_of_some, List.sum_cons]
      have h0 : wrap64 (0 + v) = wrap64 v := by rw [zero_add]
      simp [h0, h, newLong]

theorem sumQuantityLoop_true_ok (m : UnaryExpression) (xs : List (Option (Rat × String)))
    (s : Rat) (u : String) (h : ∀ p ∈ xs.reduceOption, p.2 = u) :
    sumQuantityLoop m (xs.map optQtyVal) ⟨s, u⟩ true =
      .ok (newQuantity ⟨s + (xs.reduceOption.map Prod.fst).sum, u⟩) := by
  induction xs generalizing s with
  | nil => simp [sumQuantityLoop, List.reduceOption_nil]
  | cons o rest ih =>
    cases o with
    | none =>
      rw [List.reduceOption_cons_of_none] at h
      simpa [optQtyVal, sumQuantityLoop, isNull, newNull] using ih s h
    | some p =>
      rw [List.reduceOption_cons_of_some] at h
      have hu : p.2 = u := h p (List.mem_cons_self p _)
      have hrest : ∀ q ∈ rest.reduceOption, q.2 = u := fun q hq => h q (List.mem_cons_of_mem p hq)
      have hih := ih (s + p.1) hrest
      simp [optQtyVal, sumQuantityLoop, isNull, toQuantity, newQuantity, hu,
        List.reduceOption_cons_of_some, hih, add_assoc]

theorem sumQuantityLoop_true_conflict (m : UnaryExpression) (u u1 : String) (v1 : Rat)
    (post : List (Rat × String)) (hne : u1 ≠ u) :
    ∀ (xs : List (Option (Rat × String))) (mid : List (Rat × String)) (s : Rat),
      xs.reduceOption = mid ++ (v1, u1) :: post → (∀ p ∈ mid, p.2 = u) →
      sumQuantityLoop m (xs.map optQtyVal) ⟨s, u⟩ true =
        .error ⟨unitConflictMsg m.GetName u u1⟩ := by
  intro xs
  induction xs with
  | nil =>
    intro mid s hx hmid
    rw [List.reduceOption_nil] at hx
    exact absurd hx.symm (List.append_ne_nil_of_right_ne_nil _ (List.cons_ne_nil _ _))
  | cons o rest ih =>
    intro mid s hx hmid
    cases o with
    | none =>
      rw [List.reduceOption_cons_of_none] at hx
      simpa [optQtyVal, sumQuantityLoop, isNull, newNull] using ih mid s hx hmid
    | some p =>
      rw [List.reduceOption_cons_of_some] at hx
      cases mid with
      | nil =>
        simp only [List.nil_append] at hx
        have hp : p = (v1, u1) := (List.cons_eq_cons.mp hx).1
        simp [optQtyVal, sumQuantityLoop, isNull, newQuantity, toQuantity, hp,
          Ne.symm hne, hne]
      | cons q mid2 =>
        have hp : p = q := (List.cons_eq_cons.mp hx).1
        have hrest : rest.reduceOption = mid2 ++ (v1, u1) :: post := (List.cons_eq_cons.mp hx).2
        have hq : q.2 = u := hmid q (List.mem_cons_self q _)
        have hmid2 : ∀ r ∈ mid2, r.2 = u := fun r hr => hmid r (List.mem_cons_of_mem q hr)
        have hih := ih mid2 (s + q.1) hrest hmid2
        simp [optQtyVal, sumQuantityLoop, isNull, newQuantity, toQuantity, hp, hq, hih]

theorem sumQuantityLoop_false_ok (m : UnaryExpression) (u : String) :
    ∀ (xs : List (Option (Rat × String))) (q0 : Quantity),
      (∀ p ∈ xs.reduceOption, p.2 = u) → xs.reduceOption ≠ [] →
      sumQuantityLoop m (xs.map optQtyVal) q0 false =
        .ok (newQuantity ⟨(xs.reduceOption.map Prod.fst).sum, u⟩) := by
  intro xs
  induction xs with
  | nil =>
    intro q0 h hne
    exact absurd List.reduceOption_nil hne
  | cons o rest ih =>
    intro q0 h hne
    cases o with
    | none =>
      rw [List.reduceOption_cons_of_none] at h hne
      simpa [optQtyVal, sumQuantityLoop, isNull, newNull] using ih q0 h hne
    | some p =>
      rw [List.reduceOption_cons_of_some] at h
      have hu : p.2 = u := h p (List.mem_cons_self p _)
      have hrest : ∀ q ∈ rest.reduceOption, q.2 = u := fun q hq => h q (List.mem_cons_of_mem p hq)
      have hih := sumQuantityLoop_true_ok m rest p.1 u hrest
      simp [optQtyVal, sumQuantityLoop, isNull, toQuantity, newQuantity, hu,
        List.reduceOption_cons_of_some, hih]

theorem sumQuantityLoop_false_conflict (m : UnaryExpression) (u0 u1 : String) (v0 v1 : Rat)
    (mid post : List (Rat × String)) (hmid : ∀ p ∈ mid, p.2 = u0) (hne : u1 ≠ u0) :
    ∀ (xs : List (Option (Rat × String))) (q0 : Quantity),
      xs.reduceOption = (v0, u0) :: (mid ++ (v1, u1) :: post) →
      sumQuantityLoop m (xs.map optQtyVal) q0 false =
        .error ⟨unitConflictMsg m.GetName u0 u1⟩ := by
  intro xs
  induction xs with
  | nil =>
    intro q0 hx
    simp [List.reduceOption_nil] at hx
  | cons o rest ih =>
    intro q0 hx
    cases o with
    | none =>
      rw [List.reduceOption_cons_of_none] at hx
      simpa [optQtyVal, sumQuantityLoop, isNull, newNull] using ih q0 hx
    | some p =>
      rw [List.reduceOption_cons_of_some] at hx
      have hp : p = (v0, u0) := (List.cons_eq_cons.mp hx).1
      have hrest : rest.reduceOption = mid ++ (v1, u1) :: post := (List.cons_eq_cons.mp hx).2
      have hih := sumQuantityLoop_true_conflict m u0 u1 v1 post hne rest mid (0 + v0) hrest hmid
      rw [zero_add] at hih
      simp [optQtyVal, sumQuantityLoop, isNull, newQuantity, toQuantity, hp, hih]

/-- Evaluating any aggregate on a present list operand: the null check fails
and `toSlice` yields the elements, so only the loop (and, for Sum, the
element-type dispatch) remains. -/
theorem evalSum_list (m : UnaryExpression) (elemT : CqlType) (elems : List Value) :
    evalSum m (newList elemT elems) =
      match elemT with
      | .any => .ok newNull
      | .decimal => sumDecimalLoop elems 0 false
      | .integer => sumIntegerLoop elems 0 false
      | .long => sumLongLoop elems 0 false
      | .quantity => sumQuantityLoop m elems ⟨0, ""⟩ false
      | _ => .error ⟨sumUnsupportedMsg m.GetName⟩ := by
  simp [evalSum, newList, isNull, toSlice, runtimeType]

/-! ## Claim theorems -/

/-- C1: for a null operand each aggregate returns its identity (AllTrue:
present true, AnyTrue: present false, Count: present 0, Sum: null) with no
element inspected, hence no element-coercion error; for a present empty list
(with a Sum-supported declared element type for Sum) the same identities
hold. -/
theorem aggregate_identity_on_null_and_empty (m : UnaryExpression) (rt elemT : CqlType)
    (hsup : elemT = CqlType.any ∨ elemT = CqlType.decimal ∨ elemT = CqlType.integer ∨
      elemT = CqlType.long ∨ elemT = CqlType.quantity) :
    evalAllTrue m (rt, Payload.null) = .ok (newBool true)
  ∧ evalAnyTrue m (rt, Payload.null) = .ok (newBool false)
  ∧ evalCount m (rt, Payload.null) = .ok (newInt 0)
  ∧ evalSum m (rt, Payload.null) = .ok newNull
  ∧ evalAllTrue m (newList elemT []) = .ok (newBool true)
  ∧ evalAnyTrue m (newList elemT []) = .ok (newBool false)
  ∧ evalCount m (newList elemT []) = .ok (newInt 0)
  ∧ evalSum m (newList elemT []) = .ok newNull := by
  refine ⟨rfl, rfl, rfl, rfl, rfl, rfl, rfl, ?_⟩
  rcases hsup with h | h | h | h | h <;> subst h <;> rfl

/-- C1 witness: the identities at concrete inputs. -/
theorem aggregate_identity_on_null_and_empty_witness :
    evalAllTrue ⟨"AllTrue"⟩ (CqlType.integer, Payload.null) = .ok (newBool true)
  ∧ evalAnyTrue ⟨"AllTrue"⟩ (CqlType.integer, Payload.null) = .ok (newBool false)
  ∧ evalCount ⟨"AllTrue"⟩ (CqlType.integer, Payload.null) = .ok (newInt 0)
  ∧ evalSum ⟨"AllTrue"⟩ (CqlType.integer, Payload.null) = .ok newNull
  ∧ evalAllTrue ⟨"AllTrue"⟩ (newList CqlType.integer []) = .ok (newBool true)
  ∧ evalAnyTrue ⟨"AllTrue"⟩ (newList CqlType.integer []) = .ok (newBool false)
  ∧ evalCount ⟨"AllTrue"⟩ (newList CqlType.integer []) = .ok (newInt 0)
  ∧ evalSum ⟨"AllTrue"⟩ (newList CqlType.integer []) = .ok newNull :=
  aggregate_identity_on_null_and_empty ⟨"AllTrue"⟩ CqlType.integer CqlType.integer
    (Or.inr (Or.inr (Or.inl rfl)))

/-- C3: Count of a null operand is present 0; Count of any present list (any
declared element type) is the present integer number of non-null elements;
in both cases the result is a present (non-null) value. -/
theorem count_nonnull_elements (m : UnaryExpression) (rt elemT : CqlType)
    (elems : List Value) :
    evalCount m (rt, Payload.null) = .ok (newInt 0)
  ∧ evalCount m (newList elemT elems) =
      .ok (newInt ((elems.filter fun e => !isNull e).length : Int))
  ∧ isNull (newInt ((elems.filter fun e => !isNull e).length : Int)) = false
  ∧ isNull (newInt 0) = false := by
  refine ⟨rfl, ?_, rfl, rfl⟩
  simp [evalCount, newList, isNull, toSlice, countLoop_closed]

/-- C7: Sum over a present list with declared element type Any returns null
unconditionally, whatever the elements are. -/
theorem sum_any_element_type_null (m : UnaryExpression) (elems : List Value) :
    evalSum m (newList CqlType.any elems) = .ok newNull := by
  simp [evalSum, newList, isNull, toSlice, runtimeType]

/-- C10: AllTrue and AnyTrue never consult the declared element type: on a
present list all of whose elements are null they return present true and
present false respectively, for every declared element type. -/
theorem allTrueLoop_all_null (elems : List Value) (h : ∀ e ∈ elems, isNull e = true) :
    allTrueLoop elems = .ok (newBool true) := by
  induction elems with
  | nil => rfl
  | cons e rest ih =>
    have he : isNull e = true := h e (List.mem_cons_self e _)
    have hrest := ih fun x hx => h x (List.mem_cons_of_mem e hx)
    simp [allTrueLoop, he, hrest]

theorem anyTrueLoop_all_null (elems : List Value) (h : ∀ e ∈ elems, isNull e = true) :
    anyTrueLoop elems = .ok (newBool false) := by
  induction elems with
  | nil => rfl
  | cons e rest ih =>
    have he : isNull e = true := h e (List.mem_cons_self e _)
    have hrest := ih fun x hx => h x (List.mem_cons_of_mem e hx)
    simp [anyTrueLoop, he, hrest]

theorem allTrue_anyTrue_ignore_element_type (m : UnaryExpression) (elemT : CqlType)
    (elems : List Value) (h : ∀ e ∈ elems, isNull e = true) :
    evalAllTrue m (newList elemT elems) = .ok (newBool true)
  ∧ evalAnyTrue m (newList elemT elems) = .ok (newBool false) := by
  constructor
  · simpa [evalAllTrue, newList, isNull, toSlice] using allTrueLoop_all_null elems h
  · simpa [evalAnyTrue, newList, isNull, toSlice] using anyTrueLoop_all_null elems h

/-- C10 witness: an all-null List-of-Integer (and the declared element type
is not Boolean). -/
theorem allTrue_anyTrue_ignore_element_type_witness :
    evalAllTrue ⟨"AllTrue"⟩
        (newList CqlType.integer [(CqlType.integer, Payload.null), (CqlType.strT, Payload.null)]) =
      .ok (newBool true)
  ∧ evalAnyTrue ⟨"AllTrue"⟩
        (newList CqlType.integer [(CqlType.integer, Payload.null), (CqlType.strT, Payload.null)]) =
      .ok (newBool false) :=
  allTrue_anyTrue_ignore_element_type ⟨"AllTrue"⟩ CqlType.integer
    [(CqlType.integer, Payload.null), (CqlType.strT, Payload.null)]
    (by intro e he
        rcases List.mem_cons.mp he with h1 | h2
        · rw [h1]; rfl
        · rcases List.mem_cons.mp h2 with h3 | h4
          · rw [h3]; rfl
          · exact absurd h4 (List.not_mem_nil e))

/-- C2: for a present list of Integer, Long or Decimal declared element
type, null elements are skipped and the result is the accumulator's sum of
the non-null elements (at the declared kind's width for Integer and Long);
if every element is null or the list is empty, the result is null, not
zero. -/
theorem sum_skips_nulls_numeric (m : UnaryExpression) (xs ys : List (Option Int))
    (ds : List (Option Rat)) :
    (evalSum m (newList CqlType.integer (xs.map optIntVal)) =
      if xs.reduceOption = [] then .ok newNull else .ok (newInt (wrap32 xs.reduceOption.sum)))
  ∧ (evalSum m (newList CqlType.long (ys.map optLongVal)) =
      if ys.reduceOption = [] then .ok newNull else .ok (newLong (wrap64 ys.reduceOption.sum)))
  ∧ (evalSum m (newList CqlType.decimal (ds.map optDecVal)) =
      if ds.reduceOption = [] then .ok newNull else .ok (newDecimal ds.reduceOption.sum)) := by
  refine ⟨?_, ?_, ?_⟩
  · rw [evalSum_list]
    exact sumIntegerLoop_false xs
  · rw [evalSum_list]
    exact sumLongLoop_false ys
  · rw [evalSum_list]
    exact sumDecimalLoop_false ds

theorem wrap32_range (x : Int) : -(2 ^ 31) ≤ wrap32 x ∧ wrap32 x < 2 ^ 31 := by
  unfold wrap32
  omega

theorem wrap64_range (x : Int) : -(2 ^ 63) ≤ wrap64 x ∧ wrap64 x < 2 ^ 63 := by
  unfold wrap64
  omega

/-- C5: Sum accumulates at the declared kind's width: for Integer the result
is the int32-representative congruent to the true sum mod 2^32, for Long the
int64-representative congruent mod 2^64; the result stays in the declared
width's range (no promotion to a wider type). -/
theorem sum_fixed_width_accumulation (m : UnaryExpression) (xs ys : List (Option Int))
    (hx : xs.reduceOption ≠ []) (hy : ys.reduceOption ≠ []) :
    (evalSum m (newList CqlType.integer (xs.map optIntVal)) =
        .ok (newInt (wrap32 xs.reduceOption.sum))
      ∧ wrap32 xs.reduceOption.sum % 2 ^ 32 = xs.reduceOption.sum % 2 ^ 32
      ∧ -(2 ^ 31) ≤ wrap32 xs.reduceOption.sum ∧ wrap32 xs.reduceOption.sum < 2 ^ 31)
  ∧ (evalSum m (newList CqlType.long (ys.map optLongVal)) =
        .ok (newLong (wrap64 ys.reduceOption.sum))
      ∧ wrap64 ys.reduceOption.sum % 2 ^ 64 = ys.reduceOption.sum % 2 ^ 64
      ∧ -(2 ^ 63) ≤ wrap64 ys.reduceOption.sum ∧ wrap64 ys.reduceOption.sum < 2 ^ 63) := by
  refine ⟨⟨?_, wrap32_emod _, (wrap32_range _).1, (wrap32_range _).2⟩,
    ⟨?_, wrap64_emod _, (wrap64_range _).1, (wrap64_range _).2⟩⟩
  · rw [evalSum_list]
    rw [sumIntegerLoop_false xs, if_neg hx]
  · rw [evalSum_list]
    rw [sumLongLoop_false ys, if_neg hy]

/-- C5 witness: an Integer list summing to 2^32 wraps to 0 and a Long list
summing to 2^64 wraps to 0. -/
theorem sum_fixed_width_accumulation_witness :
    evalSum ⟨"Sum"⟩ (newList CqlType.integer
        (([some (2 ^ 31), some (2 ^ 31 - 1), some 1] : List (Option Int)).map optIntVal)) =
      .ok (newInt 0)
  ∧ evalSum ⟨"Sum"⟩ (newList CqlType.long
        (([some (2 ^ 63), some (2 ^ 63)] : List (Option Int)).map optLongVal)) =
      .ok (newLong 0) := by
  have h := sum_fixed_width_accumulation ⟨"Sum"⟩
    [some (2 ^ 31), some (2 ^ 31 - 1), some 1] [some (2 ^ 63), some (2 ^ 63)]
    (by decide) (by decide)
  refine ⟨?_, ?_⟩
  · rw [h.1.1]
    norm_num [wrap32, List.reduceOption_cons_of_some]
  · rw [h.2.1]
    norm_num [wrap64, List.reduceOption_cons_of_some]

theorem allTrueLoop_shortcircuit (pre post : List Value) (e : Value)
    (hpre : ∀ x ∈ pre, isNull x = true ∨ x.2 = Payload.boolean true)
    (he : e.2 = Payload.boolean false) :
    allTrueLoop (pre ++ e :: post) = .ok (newBool false) := by
  induction pre with
  | nil => simp [allTrueLoop, isNull, toBool, he]
  | cons x rest ih =>
    have hx := hpre x (List.mem_cons_self x _)
    have hrest := ih fun y hy => hpre y (List.mem_cons_of_mem x hy)
    rcases hx with h1 | h1
    · simp [allTrueLoop, h1, hrest]
    · simp [allTrueLoop, isNull, toBool, h1, hrest]

theorem anyTrueLoop_shortcircuit (pre post : List Value) (e : Value)
    (hpre : ∀ x ∈ pre, isNull x = true ∨ x.2 = Payload.boolean false)
    (he : e.2 = Payload.boolean true) :
    anyTrueLoop (pre ++ e :: post) = .ok (newBool true) := by
  induction pre with
  | nil => simp [anyTrueLoop, isNull, toBool, he]
  | cons x rest ih =>
    have hx := hpre x (List.mem_cons_self x _)
    have hrest := ih fun y hy => hpre y (List.mem_cons_of_mem x hy)
    rcases hx with h1 | h1
    · simp [anyTrueLoop, h1, hrest]
    · simp [anyTrueLoop, isNull, toBool, h1, hrest]

/-- C6: AllTrue short-circuits: if every element before `e1` is null or a
present true boolean and `e1` is a present false boolean, the result is
present false whatever follows `e1` (later ill-typed elements cause no
error); symmetrically AnyTrue returns present true at the first non-null
true element. -/
theorem allTrue_anyTrue_shortcircuit (m : UnaryExpression) (elemT1 elemT2 : CqlType)
    (pre1 post1 pre2 post2 : List Value) (e1 e2 : Value)
    (hpre1 : ∀ x ∈ pre1, isNull x = true ∨ x.2 = Payload.boolean true)
    (he1 : e1.2 = Payload.boolean false)
    (hpre2 : ∀ x ∈ pre2, isNull x = true ∨ x.2 = Payload.boolean false)
    (he2 : e2.2 = Payload.boolean true) :
    evalAllTrue m (newList elemT1 (pre1 ++ e1 :: post1)) = .ok (newBool false)
  ∧ evalAnyTrue m (newList elemT2 (pre2 ++ e2 :: post2)) = .ok (newBool true) := by
  constructor
  · simpa [evalAllTrue, newList, isNull, toSlice] using
      allTrueLoop_shortcircuit pre1 post1 e1 hpre1 he1
  · simpa [evalAnyTrue, newList, isNull, toSlice] using
      anyTrueLoop_shortcircuit pre2 post2 e2 hpre2 he2

/-- C6 witness: the element after the deciding one is an ill-typed (integer)
payload, yet no error occurs. -/
theorem allTrue_anyTrue_shortcircuit_witness :
    evalAllTrue ⟨"AllTrue"⟩
        (newList CqlType.boolean [newBool true, newNull, newBool false, newInt 7]) =
      .ok (newBool false)
  ∧ evalAnyTrue ⟨"AnyTrue"⟩
        (newList CqlType.boolean [newBool false, newNull, newBool true, newInt 7]) =
      .ok (newBool true) := by
  have h := allTrue_anyTrue_shortcircuit ⟨"AllTrue"⟩ CqlType.boolean CqlType.boolean
    [newBool true, newNull] [newInt 7] [newBool false, newNull] [newInt 7]
    (newBool false) (newBool true)
    (by intro x hx
        rcases List.mem_cons.mp hx with h1 | h2
        · rw [h1]; exact Or.inr rfl
        · rcases List.mem_cons.mp h2 with h3 | h4
          · rw [h3]; exact Or.inl rfl
          · exact absurd h4 (List.not_mem_nil x))
    rfl
    (by intro x hx
        rcases List.mem_cons.mp hx with h1 | h2
        · rw [h1]; exact Or.inr rfl
        · rcases List.mem_cons.mp h2 with h3 | h4
          · rw [h3]; exact Or.inl rfl
          · exact absurd h4 (List.not_mem_nil x))
    rfl
  constructor
  · exact h.1
  · have h2 := allTrue_anyTrue_shortcircuit ⟨"AnyTrue"⟩ CqlType.boolean CqlType.boolean
      [newBool true, newNull] [newInt 7] [newBool false, newNull] [newInt 7]
      (newBool false) (newBool true)
      (by intro x hx
          rcases List.mem_cons.mp hx with h1 | h2
          · rw [h1]; exact Or.inr rfl
          · rcases List.mem_cons.mp h2 with h3 | h4
            · rw [h3]; exact Or.inl rfl
            · exact absurd h4 (List.not_mem_nil x))
      rfl
      (by intro x hx
          rcases List.mem_cons.mp hx with h1 | h2
          · rw [h1]; exact Or.inr rfl
          · rcases List.mem_cons.mp h2 with h3 | h4
            · rw [h3]; exact Or.inl rfl
            · exact absurd h4 (List.not_mem_nil x))
      rfl
    exact h2.2

/-- C4: for Sum over a present List of Quantity, if all non-null elements
share one unit the result is a present Quantity with that unit and the sum
of the magnitudes; the first non-null element fixes the unit, and the first
later non-null element with a different unit (exact string comparison, no
conversion) makes evaluation fail with the error naming both units. -/
theorem sum_quantity_unit_semantics (m : UnaryExpression)
    (qsOk qsBad : List (Option (Rat × String))) (u u0 u1 : String) (v0 v1 : Rat)
    (mid post : List (Rat × String))
    (hOkUnits : ∀ p ∈ qsOk.reduceOption, p.2 = u) (hOkNe : qsOk.reduceOption ≠ [])
    (hBad : qsBad.reduceOption = (v0, u0) :: (mid ++ (v1, u1) :: post))
    (hMid : ∀ p ∈ mid, p.2 = u0) (hNe : u1 ≠ u0) :
    evalSum m (newList CqlType.quantity (qsOk.map optQtyVal)) =
      .ok (newQuantity ⟨(qsOk.reduceOption.map Prod.fst).sum, u⟩)
  ∧ evalSum m (newList CqlType.quantity (qsBad.map optQtyVal)) =
      .error ⟨unitConflictMsg m.GetName u0 u1⟩ := by
  constructor
  · rw [evalSum_list]
    exact sumQuantityLoop_false_ok m u qsOk ⟨0, ""⟩ hOkUnits hOkNe
  · rw [evalSum_list]
    exact sumQuantityLoop_false_conflict m u0 u1 v0 v1 mid post hMid hNe qsBad ⟨0, ""⟩ hBad

/-- C4 witness: Sum of 2 mg and 3 mg is 5 mg; Sum of 2 mg and 3 g fails with
the unit-conflict error naming mg and g. -/
theorem sum_quantity_unit_semantics_witness :
    evalSum ⟨"Sum"⟩ (newList CqlType.quantity
        (([some ((2 : Rat), "mg"), some ((3 : Rat), "mg")] :
            List (Option (Rat × String))).map optQtyVal)) =
      .ok (newQuantity ⟨5, "mg"⟩)
  ∧ evalSum ⟨"Sum"⟩ (newList CqlType.quantity
        (([some ((2 : Rat), "mg"), some ((3 : Rat), "g")] :
            List (Option (Rat × String))).map optQtyVal)) =
      .error ⟨unitConflictMsg "Sum" "mg" "g"⟩ := by
  have h := sum_quantity_unit_semantics ⟨"Sum"⟩
    [some ((2 : Rat), "mg"), some ((3 : Rat), "mg")]
    [some ((2 : Rat), "mg"), some ((3 : Rat), "g")]
    "mg" "mg" "g" 2 3 [] []
    (by intro p hp
        rw [List.reduceOption_cons_of_some, List.reduceOption_cons_of_some,
          List.reduceOption_nil] at hp
        rcases List.mem_cons.mp hp with h1 | h2
        · rw [h1]
        · rcases List.mem_cons.mp h2 with h3 | h4
          · rw [h3]
          · exact absurd h4 (List.not_mem_nil p))
    (by rw [List.reduceOption_cons_of_some]
        exact List.cons_ne_nil _ _)
    rfl
    (by intro p hp
        exact absurd hp (List.not_mem_nil p))
    (by decide)
  refine ⟨?_, h.2⟩
  rw [h.1]
  norm_num [List.reduceOption_cons_of_some, List.reduceOption_nil]

/-- Evaluating AllTrue on a present list operand reduces to the loop. -/
theorem evalAllTrue_list (m : UnaryExpression) (elemT : CqlType) (elems : List Value) :
    evalAllTrue m (newList elemT elems) = allTrueLoop elems := by
  simp [evalAllTrue, newList, isNull, toSlice]

/-- Evaluating AnyTrue on a present list operand reduces to the loop. -/
theorem evalAnyTrue_list (m : UnaryExpression) (elemT : CqlType) (elems : List Value) :
    evalAnyTrue m (newList elemT elems) = anyTrueLoop elems := by
  simp [evalAnyTrue, newList, isNull, toSlice]

/-- Evaluating Count on a present list operand reduces to the loop. -/
theorem evalCount_list (m : UnaryExpression) (elemT : CqlType) (elems : List Value) :
    evalCount m (newList elemT elems) = .ok (newInt (countLoop elems)) := by
  simp [evalCount, newList, isNull, toSlice]

/-- C8 counterexample: AllTrue on a List of Boolean containing a present
integer element returns the coercion helper's error unchanged, and that
message does not contain the operator name obtained from the node. -/
theorem error_naming_counterexample :
    evalAllTrue ⟨"AllTrue"⟩ (newList CqlType.boolean [newInt 1]) =
      .error ⟨"cannot coerce value to a boolean"⟩
  ∧ strContains "AllTrue" "cannot coerce value to a boolean" = false :=
  ⟨rfl, by decide⟩

/-- C8 amended: the errors the aggregate operators construct themselves
(Sum non-list operand, unsupported element type, unit conflict) carry the
operator name obtained from the node accessor, and the unit-conflict error
also names both units; element-coercion and slice-coercion errors are
propagated unchanged from the value helpers, whose messages do not involve
the node. -/
theorem error_naming_amended (name u0 u1 : String) (elemT rt1 rt2 : CqlType) (n1 n2 : Int)
    (rest : List Value) :
    strContains name (sumNotListMsg name) = true
  ∧ strContains name (sumUnsupportedMsg name) = true
  ∧ strContains name (unitConflictMsg name u0 u1) = true
  ∧ strContains u0 (unitConflictMsg name u0 u1) = true
  ∧ strContains u1 (unitConflictMsg name u0 u1) = true
  ∧ evalAllTrue ⟨name⟩ (newList elemT ((rt1, Payload.integer n1) :: rest)) =
      .error ⟨"cannot coerce value to a boolean"⟩
  ∧ evalSum ⟨name⟩ (rt2, Payload.integer n2) = .error ⟨"cannot coerce value to a list"⟩ := by
  refine ⟨?_, ?_, ?_, ?_, ?_, ?_, ?_⟩
  · exact strContains_of_data name (sumNotListMsg name) ("Sum(".data)
      (") operand is not a list".data)
      (by simp [sumNotListMsg, String.data_append])
  · exact strContains_of_data name (sumUnsupportedMsg name) ("Sum(".data)
      (") operand is not a list of Decimal, Integer, Long, or Quantity".data)
      (by simp [sumUnsupportedMsg, String.data_append])
  · exact strContains_of_data name (unitConflictMsg name u0 u1) ("Sum(".data)
      ((") got List of Quantity values with different units which is not supported, got " ++
        u0 ++ " and " ++ u1).data)
      (by simp [unitConflictMsg, String.data_append])
  · exact strContains_of_data u0 (unitConflictMsg name u0 u1)
      (("Sum(" ++ name ++
        ") got List of Quantity values with different units which is not supported, got ").data)
      ((" and " ++ u1).data)
      (by simp [unitConflictMsg, String.data_append])
  · exact strContains_of_data u1 (unitConflictMsg name u0 u1)
      (("Sum(" ++ name ++
        ") got List of Quantity values with different units which is not supported, got " ++
        u0 ++ " and ").data)
      ([])
      (by simp [unitConflictMsg, String.data_append])
  · simp [evalAllTrue, newList, isNull, toSlice, allTrueLoop, toBool]
  · simp [evalSum, isNull, toSlice]

/-- C9 counterexample: two present lists that are permutations of each other
on which AllTrue yields different results: with the ill-typed element first
it errors; with the present false boolean first it short-circuits to present
false. -/
theorem permutation_invariance_counterexample :
    List.Perm ([newInt 5, newBool false] : List Value) [newBool false, newInt 5]
  ∧ evalAllTrue ⟨"AllTrue"⟩ (newList CqlType.boolean [newInt 5, newBool false]) =
      .error ⟨"cannot coerce value to a boolean"⟩
  ∧ evalAllTrue ⟨"AllTrue"⟩ (newList CqlType.boolean [newBool false, newInt 5]) =
      .ok (newBool false)
  ∧ (Except.error ⟨"cannot coerce value to a boolean"⟩ : Except EvalErr Value) ≠
      .ok (newBool false) :=
  ⟨List.Perm.swap (newBool false) (newInt 5) [], rfl, rfl,
    fun hcontra => Except.noConfusion hcontra⟩

/-- Evaluating Sum on a present Integer-typed list reduces to the Integer loop. -/
theorem evalSum_list_integer (m : UnaryExpression) (elems : List Value) :
    evalSum m (newList CqlType.integer elems) = sumIntegerLoop elems 0 false := by
  rw [evalSum_list]

/-- Evaluating Sum on a present Long-typed list reduces to the Long loop. -/
theorem evalSum_list_long (m : UnaryExpression) (elems : List Value) :
    evalSum m (newList CqlType.long elems) = sumLongLoop elems 0 false := by
  rw [evalSum_list]

/-- Evaluating Sum on a present Decimal-typed list reduces to the Decimal loop. -/
theorem evalSum_list_decimal (m : UnaryExpression) (elems : List Value) :
    evalSum m (newList CqlType.decimal elems) = sumDecimalLoop elems 0 false := by
  rw [evalSum_list]

/-- Evaluating Sum on a present Quantity-typed list reduces to the Quantity loop. -/
theorem evalSum_list_quantity (m : UnaryExpression) (elems : List Value) :
    evalSum m (newList CqlType.quantity elems) = sumQuantityLoop m elems ⟨0, ""⟩ false := by
  rw [evalSum_list]

theorem perm_eq_nil_iff {α : Type} {l1 l2 : List α} (h : l1.Perm l2) :
    l1 = [] ↔ l2 = [] := by
  constructor
  · intro e
    subst e
    exact h.symm.eq_nil
  · intro e
    subst e
    exact h.eq_nil

theorem perm_all_eq {l1 l2 : List Bool} (h : l1.Perm l2) : l1.all id = l2.all id := by
  have hiff : (l1.all id = true) ↔ (l2.all id = true) := by
    simp only [List.all_eq_true]
    exact ⟨fun hh x hx => hh x (h.mem_iff.mpr hx), fun hh x hx => hh x (h.mem_iff.mp hx)⟩
  cases hh : l2.all id
  · cases hhh : l1.all id
    · rfl
    · rw [hiff.mp hhh] at hh
      exact absurd hh (by simp)
  · exact hiff.mpr hh

theorem perm_any_eq {l1 l2 : List Bool} (h : l1.Perm l2) : l1.any id = l2.any id := by
  have hiff : (l1.any id = true) ↔ (l2.any id = true) := by
    simp only [List.any_eq_true]
    exact ⟨fun ⟨x, hx, hp⟩ => ⟨x, h.mem_iff.mp hx, hp⟩,
      fun ⟨x, hx, hp⟩ => ⟨x, h.mem_iff.mpr hx, hp⟩⟩
  cases hh : l2.any id
  · cases hhh : l1.any id
    · rfl
    · rw [hiff.mp hhh] at hh
      exact absurd hh (by simp)
  · exact hiff.mpr hh

/-- C9 amended: for element lists that are well typed for the operator
(boolean-or-null elements for AllTrue/AnyTrue, arbitrary elements for
Count, integer-or-null elements for Sum over Integer and Long), the result
of AllTrue, AnyTrue and Count, and of Sum over Integer and Long lists, is
invariant under permutation of the elements.  Sum over Decimal and
Quantity accumulates in float64, where reordering can change rounding, and
on mixed lists where evaluation errors, order can change the outcome (the
counterexample), so those cases are excluded. -/
theorem aggregate_permutation_invariance (m : UnaryExpression) (elemTB elemTC : CqlType)
    (bs1 bs2 : List (Option Bool)) (hb : bs1.Perm bs2)
    (cs1 cs2 : List Value) (hc : cs1.Perm cs2)
    (xs1 xs2 : List (Option Int)) (hx : xs1.Perm xs2)
    (ys1 ys2 : List (Option Int)) (hy : ys1.Perm ys2) :
    evalAllTrue m (newList elemTB (bs1.map optBoolVal)) =
      evalAllTrue m (newList elemTB (bs2.map optBoolVal))
  ∧ evalAnyTrue m (newList elemTB (bs1.map optBoolVal)) =
      evalAnyTrue m (newList elemTB (bs2.map optBoolVal))
  ∧ evalCount m (newList elemTC cs1) = evalCount m (newList elemTC cs2)
  ∧ evalSum m (newList CqlType.integer (xs1.map optIntVal)) =
      evalSum m (newList CqlType.integer (xs2.map optIntVal))
  ∧ evalSum m (newList CqlType.long (ys1.map optLongVal)) =
      evalSum m (newList CqlType.long (ys2.map optLongVal)) := by
  have hrob : bs1.reduceOption.Perm bs2.reduceOption := hb.filterMap id
  have hrox : xs1.reduceOption.Perm xs2.reduceOption := hx.filterMap id
  have hroy : ys1.reduceOption.Perm ys2.reduceOption := hy.filterMap id
  refine ⟨?_, ?_, ?_, ?_, ?_⟩
  · rw [evalAllTrue_list, evalAllTrue_list, allTrueLoop_closed, allTrueLoop_closed,
      perm_all_eq hrob]
  · rw [evalAnyTrue_list, evalAnyTrue_list, anyTrueLoop_closed, anyTrueLoop_closed,
      perm_any_eq hrob]
  · rw [evalCount_list, evalCount_list, countLoop_closed, countLoop_closed,
      (hc.filter _).length_eq]
  · rw [evalSum_list_integer, evalSum_list_integer, sumIntegerLoop_false,
      sumIntegerLoop_false, hrox.sum_eq]
    by_cases h : xs1.reduceOption = []
    · rw [if_pos h, if_pos ((perm_eq_nil_iff hrox).mp h)]
    · rw [if_neg h, if_neg fun e => h ((perm_eq_nil_iff hrox).mpr e)]
  · rw [evalSum_list_long, evalSum_list_long, sumLongLoop_false,
      sumLongLoop_false, hroy.sum_eq]
    by_cases h : ys1.reduceOption = []
    · rw [if_pos h, if_pos ((perm_eq_nil_iff hroy).mp h)]
    · rw [if_neg h, if_neg fun e => h ((perm_eq_nil_iff hroy).mpr e)]

/-- C9 amended witness: the invariance at concrete two-element permutations
for each covered operator. -/
theorem aggregate_permutation_invariance_witness :
    evalAllTrue ⟨"Agg"⟩ (newList CqlType.boolean
        (([some true, none] : List (Option Bool)).map optBoolVal)) =
      evalAllTrue ⟨"Agg"⟩ (newList CqlType.boolean
        (([none, some true] : List (Option Bool)).map optBoolVal))
  ∧ evalAnyTrue ⟨"Agg"⟩ (newList CqlType.boolean
        (([some true, none] : List (Option Bool)).map optBoolVal)) =
      evalAnyTrue ⟨"Agg"⟩ (newList CqlType.boolean
        (([none, some true] : List (Option Bool)).map optBoolVal))
  ∧ evalCount ⟨"Agg"⟩ (newList CqlType.integer [newInt 1, newNull]) =
      evalCount ⟨"Agg"⟩ (newList CqlType.integer [newNull, newInt 1])
  ∧ evalSum ⟨"Agg"⟩ (newList CqlType.integer
        (([some 1, some 2] : List (Option Int)).map optIntVal)) =
      evalSum ⟨"Agg"⟩ (newList CqlType.integer
        (([some 2, some 1] : List (Option Int)).map optIntVal))
  ∧ evalSum ⟨"Agg"⟩ (newList CqlType.long
        (([some 3, some 4] : List (Option Int)).map optLongVal)) =
      evalSum ⟨"Agg"⟩ (newList CqlType.long
        (([some 4, some 3] : List (Option Int)).map optLongVal)) :=
  aggregate_permutation_invariance ⟨"Agg"⟩ CqlType.boolean CqlType.integer
    [some true, none] [none, some true] (List.Perm.swap none (some true) [])
    [newInt 1, newNull] [newNull, newInt 1] (List.Perm.swap newNull (newInt 1) [])
    [some 1, some 2] [some 2, some 1] (List.Perm.swap (some 2) (some 1) [])
    [some 3, some 4] [some 4, some 3] (List.Perm.swap (some 4) (some 3) [])

end CQLAgg
